import Mathlib

/-!
# Verification of the A5 concept backend

Shallow embedding of the concept modules of the A5 repository
(`src/server/concepts/messaging.ts`, `src/server/concepts/itemizing.ts`,
the tracking, profiling and routing modules) together with proofs of the
behavioural claims stated about them.

`ObjectId` values are modelled as natural numbers; the source compares
them through `toString()`, which on `ObjectId` agrees with identity of
the underlying id, so plain equality on `Nat` is a faithful rendering.
JavaScript `Date` values are modelled as natural numbers ordered in the
usual way ( `dueDate < new Date()` becomes `<` on `Nat`).
-/

namespace A5

/-- Timestamps: JavaScript `Date` values, modelled as naturals. -/
abbrev Time := Nat

/-- Mongo `ObjectId` values, modelled as naturals. -/
abbrev ObjectId := Nat

/--
Errors a concept operation can raise.  The repository's `errors.ts` is not
part of the sources; the error classes that are declared in the concept
files (`UserNotSenderError`, `ItemCreatorNotMatchError`, ...) are embedded
as constructors carrying exactly the fields the source classes declare.
Base kinds (`NotFoundError`, `NotAllowedError`, `BadValuesError`) and the
node `assert` failure carry no payload here; their message strings are
elided.
-/
inductive Err where
  /-- `NotFoundError` : the referenced entity is absent. -/
  | notFound : Err
  /-- A plain `NotAllowedError` raised directly by the routing layer. -/
  | notAllowed : Err
  /-- `BadValuesError` : malformed input. -/
  | badValues : Err
  /-- A failed node `assert(...)` call. -/
  | assertionFailed : Err
  /-- `UserNotSenderError(user, _id)`. -/
  | userNotSender (user _id : ObjectId) : Err
  /-- `UserNotMatchError(user, _id)`. -/
  | userNotMatch (user _id : ObjectId) : Err
  /-- `NotADraftError(_id)`. -/
  | notADraft (_id : ObjectId) : Err
  /-- `MessageNotSentError(_id)`. -/
  | messageNotSent (_id : ObjectId) : Err
  /-- `ItemCreatorNotMatchError(creator, _id)`. -/
  | itemCreatorNotMatch (creator _id : ObjectId) : Err
  /-- `InvalidStatusError(status)`. -/
  | invalidStatus (status : String) : Err
  /-- `GoalExecutorNotMatchError(executor, _id)`. -/
  | goalExecutorNotMatch (executor _id : ObjectId) : Err
  /-- `UserProfileExistsError(user)`. -/
  | userProfileExists (user : ObjectId) : Err
  /-- `ProfileDoesNotExistsError(user)`. -/
  | profileDoesNotExist (user : ObjectId) : Err
  deriving Repr, DecidableEq

/-- Replace the first element satisfying `p` by its image under `u`
(the list analogue of a Mongo `updateOne` with `$set`). -/
def updateFirst (p : α → Bool) (u : α → α) : List α → List α
  | [] => []
  | d :: l => if p d then u d :: l else d :: updateFirst p u l

/-- Remove the first element satisfying `p`
(the list analogue of a Mongo `deleteOne`). -/
def deleteFirst (p : α → Bool) : List α → List α
  | [] => []
  | d :: l => if p d then l else d :: deleteFirst p l

/-- Documents that carry the store-assigned base timestamps
(`dateCreated`, `dateUpdated` of `BaseDoc`). -/
class StoreDoc (α : Type) where
  setCreated : Time → α → α
  setUpdated : Time → α → α

/--
Modelled from the spec: `src/server/framework/doc.ts` (the generic
`DocCollection` wrapper) is not among the sources.  Section 2 of the spec
describes it as a "generic keyed collection supporting create, read-one,
read-many (with filter/sort), partial update, and delete, keyed by an
opaque unique identifier assigned at creation", and section 3 adds that
creation and last-update timestamps are assigned by the store.  Documents
are kept in insertion order; `readOne`, `partialUpdateOne` and `deleteOne`
act on the first document matching the filter, and `createOne` assigns the
next fresh identifier.
-/
structure DocCollection (α : Type) where
  docs : List α
  nextId : Nat
  deriving Repr, DecidableEq

/-- The empty collection. -/
def DocCollection.empty : DocCollection α := ⟨[], 0⟩

/-- Read the first document matching the filter, `null` if none does. -/
def DocCollection.readOne (c : DocCollection α) (p : α → Bool) : Option α :=
  c.docs.find? p

/-- Read all documents matching the filter. -/
def DocCollection.readMany (c : DocCollection α) (p : α → Bool) : List α :=
  c.docs.filter p

/-- Insert a new document built from a fresh id; the store stamps
`dateCreated` and `dateUpdated`.  Returns the new id. -/
def DocCollection.createOne [StoreDoc α] (c : DocCollection α) (now : Time)
    (mk : ObjectId → α) : ObjectId × DocCollection α :=
  (c.nextId,
   ⟨c.docs ++ [StoreDoc.setUpdated now (StoreDoc.setCreated now (mk c.nextId))],
    c.nextId + 1⟩)

/-- `$set` the listed fields on the first document matching the filter; the
store re-stamps `dateUpdated`. -/
def DocCollection.partialUpdateOne [StoreDoc α] (c : DocCollection α)
    (now : Time) (p : α → Bool) (u : α → α) : DocCollection α :=
  ⟨updateFirst p (fun d => StoreDoc.setUpdated now (u d)) c.docs, c.nextId⟩

/-- Delete the first document matching the filter (no error if absent). -/
def DocCollection.deleteOne (c : DocCollection α) (p : α → Bool) :
    DocCollection α :=
  ⟨deleteFirst p c.docs, c.nextId⟩

/-- All stored ids are below the next fresh id (holds in every state the
store can actually reach; `createOne` is the only id source). -/
def DocCollection.Bounded (c : DocCollection α) (idOf : α → ObjectId) : Prop :=
  ∀ d ∈ c.docs, idOf d < c.nextId

/-- JavaScript truthiness of a `string | undefined` value:
`undefined` and the empty string are falsy. -/
def jsTruthy : Option String → Bool
  | none => false
  | some s => s != ""

/-! ## Messaging (`src/server/concepts/messaging.ts`)

`MessageDoc` from lines 6-23 of the source.  Optional fields are `Option`;
a `partialUpdateOne` call site that sets a field as `undefined` clears it
(writes `none`), mirroring the spec, which says the draft fields are
cleared on send. -/

/-- `MessageDoc` of `messaging.ts`. -/
structure MessageDoc where
  _id : ObjectId
  dateCreated : Time
  dateUpdated : Time
  «from» : ObjectId
  «to» : ObjectId
  message : String
  attachment : Option ObjectId
  draft : Option Bool
  timeDrafted : Option Time
  sent : Option Bool
  timeSent : Option Time
  receivedMessageID : Option ObjectId
  received : Option Bool
  timeReceived : Option Time
  sentMessageID : Option ObjectId
  deriving Repr, DecidableEq

instance : StoreDoc MessageDoc where
  setCreated t d := { d with dateCreated := t }
  setUpdated t d := { d with dateUpdated := t }

/-- The `messages` collection of `MessagingConcept`. -/
abbrev Messages := DocCollection MessageDoc

namespace MessagingConcept

/-- `MessagingConcept.draft` (messaging.ts lines 48-53).  `now` stands for
the `new Date()` call. -/
def draft (now : Time) (c : Messages) («from» «to» : ObjectId) (message : String)
    (attachment : Option ObjectId) : Option MessageDoc × Messages :=
  let (_id, c1) := c.createOne now (fun i =>
    { _id := i, dateCreated := 0, dateUpdated := 0,
      «from» := «from», «to» := «to», message := message,
      attachment := attachment,
      draft := some true, timeDrafted := some now,
      sent := none, timeSent := none, receivedMessageID := none,
      received := none, timeReceived := none, sentMessageID := none })
  (c1.readOne (fun d => d._id == _id), c1)

/-- `MessagingConcept.readDrafts` (messaging.ts lines 61-63). -/
def readDrafts (c : Messages) («from» : ObjectId) : List MessageDoc :=
  c.readMany (fun d => d.«from» == «from» && d.draft == some true)

/-- `MessagingConcept.editDraft` (messaging.ts lines 75-87).  The `assert`
on existence raises; the draft flag is never inspected. -/
def editDraft (now : Time) (c : Messages) (_id : ObjectId)
    (message : Option String) («to» : Option ObjectId)
    (attachment : Option ObjectId) :
    Except Err (Option MessageDoc × Messages) :=
  match c.readOne (fun d => d._id == _id) with
  | none => .error .assertionFailed
  | some messageObj =>
    let updatedMessage := match message with
      | some m => m
      | none => messageObj.message
    let updatedContact := match «to» with
      | some t => t
      | none => messageObj.«to»
    let updatedAttachment := match attachment with
      | some a => some a
      | none => messageObj.attachment
    let c1 := c.partialUpdateOne now (fun d => d._id == _id) (fun d =>
      { d with message := updatedMessage, «to» := updatedContact,
               attachment := updatedAttachment })
    .ok (c1.readOne (fun d => d._id == _id), c1)

/-- `MessagingConcept.deleteDraft` (messaging.ts lines 96-99). -/
def deleteDraft (c : Messages) (user _id : ObjectId) : Messages :=
  c.deleteOne (fun d => d._id == _id)

/-- `MessagingConcept.send` (messaging.ts lines 110-144): asserts the
message exists, creates the `received` copy, then rewrites the original
into the `sent` state, clearing the draft fields. -/
def send (now : Time) (c : Messages) (_id : ObjectId) («from» «to» : ObjectId) :
    Except Err (Option MessageDoc × Messages) :=
  match c.readOne (fun d => d._id == _id) with
  | none => .error .assertionFailed
  | some messageObj =>
    let (receivedMessageID, c1) := c.createOne now (fun i =>
      { _id := i, dateCreated := 0, dateUpdated := 0,
        «from» := «from», «to» := «to», message := messageObj.message,
        attachment := messageObj.attachment,
        draft := none, timeDrafted := none,
        sent := none, timeSent := none, receivedMessageID := none,
        received := some true, timeReceived := some now,
        sentMessageID := some _id })
    let c2 := c1.partialUpdateOne now (fun d => d._id == _id) (fun d =>
      { d with draft := none, timeDrafted := none,
               sent := some true, timeSent := some now,
               receivedMessageID := some receivedMessageID })
    .ok (c2.readOne (fun d => d._id == _id), c2)

/-- `MessagingConcept.editSent` (messaging.ts lines 175-191): the updated
text and attachment are written onto the queried message and then onto the
document whose `_id` equals its `receivedMessageID`. -/
def editSent (now : Time) (c : Messages) (_id : ObjectId)
    (message : Option String) (attachment : Option ObjectId) :
    Except Err (Option MessageDoc × Messages) :=
  match c.readOne (fun d => d._id == _id) with
  | none => .error .assertionFailed
  | some messageObj =>
    let updatedMessage := match message with
      | some m => m
      | none => messageObj.message
    let updatedAttachment := match attachment with
      | some a => some a
      | none => messageObj.attachment
    let c1 := c.partialUpdateOne now (fun d => d._id == _id) (fun d =>
      { d with message := updatedMessage, attachment := updatedAttachment })
    let c2 := c1.partialUpdateOne now
      (fun d => messageObj.receivedMessageID == some d._id) (fun d =>
      { d with message := updatedMessage, attachment := updatedAttachment })
    .ok (c2.readOne (fun d => d._id == _id), c2)

/-- The `$set` function both `editSent` writes use (definitionally equal
to the update applied at each of the two `partialUpdateOne` call sites,
store timestamp included); named so proofs can refer to it. -/
def editSentUpdate (now : Time) (updM : String) (updA : Option ObjectId)
    (d : MessageDoc) : MessageDoc :=
  StoreDoc.setUpdated now { d with message := updM, attachment := updA }

/-- `MessagingConcept.assertUserIsSender` (messaging.ts lines 233-243). -/
def assertUserIsSender (c : Messages) (user _id : ObjectId) :
    Except Err Unit :=
  match c.readOne (fun d => d._id == _id) with
  | none => .error .notFound
  | some message =>
    if message.«from» != user then .error (.userNotSender user _id)
    else .ok ()

/-- `MessagingConcept.assertSenderOrReceiver` (messaging.ts lines
251-261): raises `UserNotMatchError` when `from` differs from the user
and the recipient field equals the user. -/
def assertSenderOrReceiver (c : Messages) (user _id : ObjectId) :
    Except Err Unit :=
  match c.readOne (fun d => d._id == _id) with
  | none => .error .notFound
  | some message =>
    if message.«from» != user && message.«to» == user then
      .error (.userNotMatch user _id)
    else .ok ()

/-- `MessagingConcept.deleteSent` (messaging.ts lines 200-213): after the
sender check it deletes the document with the given `_id`, then deletes
the first document whose `receivedMessageID` field equals the recorded
receiver message id. -/
def deleteSent (c : Messages) (user _id : ObjectId) : Except Err Messages :=
  (assertUserIsSender c user _id).bind fun _ =>
  match (c.readOne (fun d => d._id == _id)).bind
      (fun m => m.receivedMessageID) with
  | none => .error .assertionFailed
  | some receiverMessageID =>
    let c1 := c.deleteOne (fun d => d._id == _id)
    let c2 := c1.deleteOne (fun d => d.receivedMessageID == some receiverMessageID)
    .ok c2

/-- `MessagingConcept.read` (messaging.ts lines 222-224). -/
def read (c : Messages) (user _id : ObjectId) : Option MessageDoc :=
  c.readOne (fun d => d._id == _id)

end MessagingConcept

/-! ## Itemizing (`src/server/concepts/itemizing.ts`) -/

/-- `STATUS_TYPES` of itemizing.ts. -/
def STATUS_TYPES : List String := ["complete", "in-progress"]

/-- `ItemDoc` of itemizing.ts (status is optional in the document). -/
structure ItemDoc where
  _id : ObjectId
  dateCreated : Time
  dateUpdated : Time
  creator : ObjectId
  title : String
  description : String
  status : Option String
  deriving Repr, DecidableEq

instance : StoreDoc ItemDoc where
  setCreated t d := { d with dateCreated := t }
  setUpdated t d := { d with dateUpdated := t }

/-- The `items` collection of `ItemizingConcept`. -/
abbrev Items := DocCollection ItemDoc

namespace ItemizingConcept

/-- `ItemizingConcept.create` (itemizing.ts lines 41-44). -/
def create (now : Time) (c : Items) (creator : ObjectId)
    (title description : String) (status : Option String) :
    Option ItemDoc × Items :=
  let (_id, c1) := c.createOne now (fun i =>
    { _id := i, dateCreated := 0, dateUpdated := 0,
      creator := creator, title := title, description := description,
      status := status })
  (c1.readOne (fun d => d._id == _id), c1)

/-- `ItemizingConcept.update` (itemizing.ts lines 74-92): every omitted
field is rewritten with its prior value. -/
def update (now : Time) (c : Items) (_id : ObjectId)
    (title description status : Option String) :
    Except Err (Option ItemDoc × Items) :=
  match c.readOne (fun d => d._id == _id) with
  | none => .error .assertionFailed
  | some item =>
    let updTitle := match title with
      | some t => t
      | none => item.title
    let updDescription := match description with
      | some d => d
      | none => item.description
    let updStatus := match status with
      | some s => some s
      | none => item.status
    let c1 := c.partialUpdateOne now (fun d => d._id == _id) (fun d =>
      { d with title := updTitle, description := updDescription,
               status := updStatus })
    .ok (c1.readOne (fun d => d._id == _id), c1)

/-- `ItemizingConcept.delete` (itemizing.ts lines 100-103). -/
def delete (c : Items) (_id : ObjectId) : Items :=
  c.deleteOne (fun d => d._id == _id)

/-- `ItemizingConcept.assertCreatorIsUser` (itemizing.ts lines 111-119). -/
def assertCreatorIsUser (c : Items) (_id user : ObjectId) :
    Except Err Unit :=
  match c.readOne (fun d => d._id == _id) with
  | none => .error .notFound
  | some item =>
    if item.creator != user then .error (.itemCreatorNotMatch user _id)
    else .ok ()

/-- `ItemizingConcept.assertValidStatus` (itemizing.ts lines 126-130):
`if (status && !STATUS_TYPES.includes(status)) throw`, where the guard
uses JavaScript truthiness of the string. -/
def assertValidStatus (status : Option String) : Except Err Unit :=
  if jsTruthy status && !(STATUS_TYPES.contains (status.getD "")) then
    .error (.invalidStatus (status.getD ""))
  else .ok ()

/-- `ItemizingConcept.assertValidItemDetails` (itemizing.ts lines
138-142): empty title or description is a `BadValuesError`. -/
def assertValidItemDetails (title description : String) : Except Err Unit :=
  if title == "" || description == "" then .error .badValues
  else .ok ()

end ItemizingConcept

/-! ## Tracking (`src/unnamed/part_003`, the goal-tracking concept) -/

/-- `GOAL_TYPES` of the tracking concept. -/
def GOAL_TYPES : List String := ["complete", "pending", "past due"]

/-- `GoalDoc` of the tracking concept.  `description` is optional at the
call sites (`create` may omit it), so it is stored as an `Option`. -/
structure GoalDoc where
  _id : ObjectId
  dateCreated : Time
  dateUpdated : Time
  executor : ObjectId
  title : String
  description : Option String
  status : String
  due : Time
  deriving Repr, DecidableEq

instance : StoreDoc GoalDoc where
  setCreated t d := { d with dateCreated := t }
  setUpdated t d := { d with dateUpdated := t }

/-- The `goals` collection of `TrackingConcept`. -/
abbrev Goals := DocCollection GoalDoc

namespace TrackingConcept

/-- `TrackingConcept.create` (part_003 lines 41-54): status starts as
`"pending"` and becomes `"past due"` when the due date is already past
(`due < currentDate`). -/
def create (now : Time) (c : Goals) (executor : ObjectId) (title : String)
    (due : Time) (description : Option String) : Option GoalDoc × Goals :=
  let status := if due < now then "past due" else "pending"
  let (_id, c1) := c.createOne now (fun i =>
    { _id := i, dateCreated := 0, dateUpdated := 0,
      executor := executor, title := title, description := description,
      status := status, due := due })
  (c1.readOne (fun d => d._id == _id), c1)

/-- `TrackingConcept.viewStatus` (part_003 lines 75-79). -/
def viewStatus (c : Goals) (executor : ObjectId) (status : String) :
    List GoalDoc :=
  c.readMany (fun d => d.executor == executor && d.status == status)

/-- `TrackingConcept.viewOneGoal` (part_003 lines 87-89). -/
def viewOneGoal (c : Goals) (_id : ObjectId) : Option GoalDoc :=
  c.readOne (fun d => d._id == _id)

/-- `TrackingConcept.edit` (part_003 lines 101-123): every omitted field
is rewritten with its prior value. -/
def edit (now : Time) (c : Goals) (_id : ObjectId)
    (title : Option String) (description : Option String)
    (status : Option String) (due : Option Time) :
    Except Err (Option GoalDoc × Goals) :=
  match c.readOne (fun d => d._id == _id) with
  | none => .error .notFound
  | some goal =>
    let updTitle := match title with
      | some t => t
      | none => goal.title
    let updDescription := match description with
      | some d => some d
      | none => goal.description
    let updStatus := match status with
      | some s => s
      | none => goal.status
    let updDue := match due with
      | some d => d
      | none => goal.due
    let c1 := c.partialUpdateOne now (fun d => d._id == _id) (fun d =>
      { d with title := updTitle, description := updDescription,
               status := updStatus, due := updDue })
    .ok (c1.readOne (fun d => d._id == _id), c1)

/-- `TrackingConcept.delete` (part_003 lines 130-133). -/
def delete (c : Goals) (_id : ObjectId) : Goals :=
  c.deleteOne (fun d => d._id == _id)

/-- `TrackingConcept.assertExecutorIsUser` (part_003 lines 141-150). -/
def assertExecutorIsUser (c : Goals) (_id user : ObjectId) :
    Except Err Unit :=
  match c.readOne (fun d => d._id == _id) with
  | none => .error .notFound
  | some goal =>
    if goal.executor != user then .error (.goalExecutorNotMatch user _id)
    else .ok ()

/-- `TrackingConcept.updateGoalStatuses` (part_003 lines 157-169): read
the pending goals, then set each overdue one (`due < currentDate`) past
due, one update at a time. -/
def updateGoalStatuses (now : Time) (c : Goals) : Goals :=
  let pendingGoals := c.readMany (fun d => d.status == "pending")
  pendingGoals.foldl (fun st goal =>
    if goal.due < now then
      st.partialUpdateOne now (fun d => d._id == goal._id)
        (fun d => { d with status := "past due" })
    else st) c

end TrackingConcept

/-! ## Profiling (`src/unnamed/part_004`) -/

/-- `ProfileDoc` of the profiling concept. -/
structure ProfileDoc where
  _id : ObjectId
  dateCreated : Time
  dateUpdated : Time
  user : ObjectId
  name : String
  contact : Option String
  bio : Option String
  deriving Repr, DecidableEq

instance : StoreDoc ProfileDoc where
  setCreated t d := { d with dateCreated := t }
  setUpdated t d := { d with dateUpdated := t }

/-- The `profiles` collection of `ProfilingConcept`. -/
abbrev Profiles := DocCollection ProfileDoc

namespace ProfilingConcept

/-- `ProfilingConcept.create` (part_004 lines 37-41). -/
def create (now : Time) (c : Profiles) (user : ObjectId) (name : String)
    (contact bio : Option String) : Option ProfileDoc × Profiles :=
  let (_, c1) := c.createOne now (fun i =>
    { _id := i, dateCreated := 0, dateUpdated := 0,
      user := user, name := name, contact := contact, bio := bio })
  (c1.readOne (fun d => d.user == user), c1)

/-- `ProfilingConcept.viewProfile` (part_004 lines 49-51). -/
def viewProfile (c : Profiles) (user : ObjectId) : Option ProfileDoc :=
  c.readOne (fun d => d.user == user)

/-- `ProfilingConcept.update` (part_004 lines 62-80): every omitted field
is rewritten with its prior value; the record is found by its `user`
reference. -/
def update (now : Time) (c : Profiles) (user : ObjectId)
    (name contact bio : Option String) :
    Except Err (Option ProfileDoc × Profiles) :=
  match viewProfile c user with
  | none => .error .assertionFailed
  | some userProfile =>
    let updName := match name with
      | some n => n
      | none => userProfile.name
    let updContact := match contact with
      | some ct => some ct
      | none => userProfile.contact
    let updBio := match bio with
      | some b => some b
      | none => userProfile.bio
    let c1 := c.partialUpdateOne now (fun d => d.user == user) (fun d =>
      { d with name := updName, contact := updContact, bio := updBio })
    .ok (c1.readOne (fun d => d.user == user), c1)

/-- `ProfilingConcept.delete` (part_004 lines 87-91). -/
def delete (c : Profiles) (user : ObjectId) : Profiles :=
  c.deleteOne (fun d => d.user == user)

/-- `ProfilingConcept.assertProfileExists` (part_004 lines 98-104). -/
def assertProfileExists (c : Profiles) (user : ObjectId) : Except Err Unit :=
  match c.readOne (fun d => d.user == user) with
  | none => .error (.profileDoesNotExist user)
  | some _ => .ok ()

/-- `ProfilingConcept.assertProfileDoesNotExist` (part_004 lines
111-117). -/
def assertProfileDoesNotExist (c : Profiles) (user : ObjectId) :
    Except Err Unit :=
  match c.readOne (fun d => d.user == user) with
  | some _ => .error (.userProfileExists user)
  | none => .ok ()

end ProfilingConcept

/-! ## Routing layer (`src/unnamed/part_002`), the endpoints the claims
use.  Session resolution (`Sessioning.getUser`) is outside the concepts;
the endpoints are modelled as taking the already-resolved user id. -/

namespace Routes

/-- `Routes.createProfile` (part_002 lines 215-221): the existence guard
followed by `Profiling.create`. -/
def createProfile (now : Time) (c : Profiles) (user : ObjectId)
    (name : String) (contact bio : Option String) :
    Except Err (Option ProfileDoc × Profiles) :=
  (ProfilingConcept.assertProfileDoesNotExist c user).map fun _ =>
    ProfilingConcept.create now c user name contact bio

/-- `Routes.deleteProfile` (part_002 lines 223-229). -/
def deleteProfile (c : Profiles) (user : ObjectId) : Except Err Profiles :=
  (ProfilingConcept.assertProfileExists c user).map fun _ =>
    ProfilingConcept.delete c user

/-- `Routes.updateProfile` (part_002 lines 231-237). -/
def updateProfile (now : Time) (c : Profiles) (user : ObjectId)
    (name contact bio : Option String) :
    Except Err (Option ProfileDoc × Profiles) :=
  (ProfilingConcept.assertProfileExists c user).bind fun _ =>
    ProfilingConcept.update now c user name contact bio

/-- `Routes.sendMessage` (part_002 lines 319-333): reads the message,
checks the sender, throws `NotADraftError` when the draft flag is not
truthy, then calls `Messaging.send`. -/
def sendMessage (now : Time) (c : Messages) (userID : ObjectId)
    (id : ObjectId) : Except Err (Option MessageDoc × Messages) :=
  match MessagingConcept.read c userID id with
  | none => .error .notAllowed
  | some messageObj =>
    (MessagingConcept.assertUserIsSender c userID id).bind fun _ =>
      if !(messageObj.draft == some true) then .error (.notADraft id)
      else MessagingConcept.send now c id userID messageObj.«to»

end Routes

/-- Profile states reachable from the empty store through the profile
endpoints of the routing layer (a failing endpoint leaves the store
unchanged, so only successful calls produce new states). -/
inductive ProfReachable : Profiles → Prop where
  | init : ProfReachable DocCollection.empty
  | createStep {now c user name contact bio r c1} :
      ProfReachable c →
      Routes.createProfile now c user name contact bio = .ok (r, c1) →
      ProfReachable c1
  | deleteStep {c user c1} :
      ProfReachable c →
      Routes.deleteProfile c user = .ok c1 →
      ProfReachable c1
  | updateStep {now c user name contact bio r c1} :
      ProfReachable c →
      Routes.updateProfile now c user name contact bio = .ok (r, c1) →
      ProfReachable c1

/-- At most one stored profile per user reference. -/
def AtMostOnePerUser (c : Profiles) : Prop :=
  ∀ u : ObjectId, (c.docs.filter (fun d => d.user == u)).length ≤ 1

/-! ## Lemmas about the list primitives of the store -/

theorem find?_of_forall_false {p : α → Bool} {l : List α}
    (h : ∀ x ∈ l, p x = false) : l.find? p = none := by
  induction l with
  | nil => rfl
  | cons d l ih =>
    rw [List.find?_cons_of_neg _ (by simp [h d (by simp)])]
    exact ih fun x hx => h x (by simp [hx])

theorem find?_append_left_false {p : α → Bool} {l1 l2 : List α}
    (h : ∀ x ∈ l1, p x = false) : (l1 ++ l2).find? p = l2.find? p := by
  induction l1 with
  | nil => rfl
  | cons d l ih =>
    rw [List.cons_append, List.find?_cons_of_neg _ (by simp [h d (by simp)])]
    exact ih fun x hx => h x (by simp [hx])

theorem updateFirst_append_left_false {p : α → Bool} {u : α → α}
    {l1 l2 : List α} (h : ∀ x ∈ l1, p x = false) :
    updateFirst p u (l1 ++ l2) = l1 ++ updateFirst p u l2 := by
  induction l1 with
  | nil => rfl
  | cons d l ih =>
    rw [List.cons_append, updateFirst, if_neg (by simp [h d (by simp)]),
      ih fun x hx => h x (by simp [hx]), List.cons_append]

theorem find?_updateFirst_same {p : α → Bool} {u : α → α} {l : List α} {d : α}
    (hpu : ∀ x, p (u x) = p x) (h : l.find? p = some d) :
    (updateFirst p u l).find? p = some (u d) := by
  induction l with
  | nil => simp [List.find?] at h
  | cons a l ih =>
    by_cases hpa : p a = true
    · rw [List.find?_cons_of_pos _ hpa] at h
      rw [updateFirst, if_pos hpa,
        List.find?_cons_of_pos _ (by rw [hpu]; exact hpa)]
      simp_all
    · rw [List.find?_cons_of_neg _ hpa] at h
      rw [updateFirst, if_neg hpa, List.find?_cons_of_neg _ hpa]
      exact ih h

theorem find?_updateFirst_other {p q : α → Bool} {u : α → α} {l : List α}
    (hqu : ∀ x, q (u x) = q x) (hpq : ∀ x, q x = true → p x = false) :
    (updateFirst p u l).find? q = l.find? q := by
  induction l with
  | nil => rfl
  | cons a l ih =>
    by_cases hpa : p a = true
    · have hqa : q a = false := by
        by_contra hq
        rw [hpq a (by simpa using hq)] at hpa
        exact Bool.false_ne_true hpa
      rw [updateFirst, if_pos hpa,
        List.find?_cons_of_neg _ (by rw [hqu]; simp [hqa]),
        List.find?_cons_of_neg _ (by simp [hqa])]
    · rw [updateFirst, if_neg hpa]
      by_cases hqa : q a = true
      · rw [List.find?_cons_of_pos _ hqa, List.find?_cons_of_pos _ hqa]
      · rw [List.find?_cons_of_neg _ hqa, List.find?_cons_of_neg _ hqa]
        exact ih

theorem filter_updateFirst_length {p q : α → Bool} {u : α → α}
    (hqu : ∀ x, q (u x) = q x) (l : List α) :
    ((updateFirst p u l).filter q).length = (l.filter q).length := by
  induction l with
  | nil => rfl
  | cons a l ih =>
    by_cases hpa : p a = true
    · rw [updateFirst, if_pos hpa]
      simp only [List.filter_cons, hqu]
      cases q a <;> simp
    · rw [updateFirst, if_neg hpa]
      simp only [List.filter_cons]
      cases q a <;> simp [ih]

theorem deleteFirst_sublist (p : α → Bool) (l : List α) :
    List.Sublist (deleteFirst p l) l := by
  induction l with
  | nil => exact List.Sublist.refl _
  | cons a l ih =>
    rw [deleteFirst]
    by_cases hpa : p a = true
    · rw [if_pos hpa]
      exact List.sublist_cons_of_sublist a (List.Sublist.refl l)
    · rw [if_neg hpa]
      exact List.Sublist.cons₂ a ih

theorem filter_deleteFirst_eq_nil {p : α → Bool} {l : List α}
    (h : (l.filter p).length ≤ 1) : (deleteFirst p l).filter p = [] := by
  induction l with
  | nil => rfl
  | cons a l ih =>
    rw [deleteFirst]
    by_cases hpa : p a = true
    · rw [if_pos hpa]
      rw [List.filter_cons_of_pos hpa] at h
      simp only [List.length_cons] at h
      exact List.length_eq_zero.mp (by omega)
    · rw [if_neg hpa, List.filter_cons_of_neg (by simpa using hpa)]
      rw [List.filter_cons_of_neg (by simpa using hpa)] at h
      exact ih h

theorem find?_pairwise_eq_some {f : α → Nat} {l : List α} {g : α}
    (hp : l.Pairwise (fun a b => f a ≠ f b)) (hm : g ∈ l) :
    l.find? (fun d => f d == f g) = some g := by
  induction l with
  | nil => cases hm
  | cons a l ih =>
    rcases List.mem_cons.mp hm with hg | hg
    · subst hg
      exact List.find?_cons_of_pos _ (by simp)
    · rw [List.pairwise_cons] at hp
      have hne : f a ≠ f g := hp.1 g hg
      rw [List.find?_cons_of_neg _ (by simpa using hne)]
      exact ih hp.2 hg

theorem updateFirst_congr {p q : α → Bool} (u : α → α) (l : List α)
    (h : ∀ x, p x = q x) : updateFirst p u l = updateFirst q u l := by
  induction l with
  | nil => rfl
  | cons a l ih => rw [updateFirst, updateFirst, h a, ih]

/-! ## The claims -/

/-- Claim C2: the claim says `deleteSent` invoked by the sender removes
both linked copies.  Evaluating the code at the failing input (draft then
send from the empty store, then `deleteSent` by the sender on the sent
copy) shows the recipient's received copy is NOT removed: the second
`deleteOne` filters on the `receivedMessageID` field, which the received
copy does not carry (it carries `sentMessageID`), so only the sender's
copy is deleted and the received record survives. -/
theorem claim_C2_deleteSent_failing_input :
    ∃ r c2 c3,
      MessagingConcept.send 1
          (MessagingConcept.draft 0 DocCollection.empty 10 20 "hi" none).2
          0 10 20 = .ok (r, c2)
      ∧ MessagingConcept.deleteSent c2 10 0 = .ok c3
      ∧ c3.docs.length = 1
      ∧ ∃ d, c3.docs = [d] ∧ d.received = some true
          ∧ d.sentMessageID = some 0 := by
  exact ⟨_, _, _, rfl, rfl, rfl, _, rfl, rfl, rfl⟩

/-- Claim C5: the claim says `send` and `editDraft` fail with `NotADraft`
on any existing non-draft message.  At concept level neither checks the
draft flag: after a draft is sent (so the message is in state `sent`, not
`draft`), `editDraft` proceeds and rewrites the sent message, and `send`
proceeds and creates a duplicate received copy.  Only the `sendMessage`
route guards with `NotADraftError`. -/
theorem claim_C5_no_draft_guard_failing_input :
    ∃ r c2,
      MessagingConcept.send 1
          (MessagingConcept.draft 0 DocCollection.empty 10 20 "hi" none).2
          0 10 20 = .ok (r, c2)
      ∧ (c2.readOne (fun d => d._id == 0)).map (fun d => d.draft) = some none
      ∧ (c2.readOne (fun d => d._id == 0)).map (fun d => d.sent)
          = some (some true)
      ∧ (∃ r3 c3,
          MessagingConcept.editDraft 2 c2 0 (some "bye") none none
            = .ok (r3, c3)
          ∧ (c3.readOne (fun d => d._id == 0)).map (fun d => d.message)
              = some "bye")
      ∧ (∃ r4 c4, MessagingConcept.send 2 c2 0 10 20 = .ok (r4, c4)
          ∧ c4.docs.length = 3)
      ∧ Routes.sendMessage 2 c2 10 0 = .error (.notADraft 0) := by
  exact ⟨_, _, rfl, rfl, rfl, ⟨_, _, rfl, rfl⟩, ⟨_, _, rfl, rfl⟩, rfl⟩

/-- Claim C8, counterexample: the empty string is a status string outside
the declared enum `STATUS_TYPES`, yet `assertValidStatus` returns without
error on it, because the JavaScript guard `status && ...` treats the
empty string as falsy. -/
theorem claim_C8_counterexample :
    ItemizingConcept.assertValidStatus (some "") = .ok ()
    ∧ ¬ ("" ∈ STATUS_TYPES) := by
  exact ⟨rfl, by decide⟩

/-- Claim C8 as amended: `assertValidStatus` fails with
`InvalidStatusError` exactly on the non-empty status strings outside the
declared enum, and returns without error on `undefined` and on the empty
string. -/
theorem claim_C8_assertValidStatus_amended :
    (∀ s : String,
      ItemizingConcept.assertValidStatus (some s)
          = .error (.invalidStatus s)
        ↔ (s ≠ "" ∧ s ∉ STATUS_TYPES))
    ∧ ItemizingConcept.assertValidStatus none = .ok ()
    ∧ (∀ s : String,
      ItemizingConcept.assertValidStatus (some s) = .ok ()
        ↔ (s = "" ∨ s ∈ STATUS_TYPES)) := by
  refine ⟨fun s => ?_, rfl, fun s => ?_⟩ <;>
    by_cases he : s = "" <;>
      by_cases hm : s ∈ STATUS_TYPES <;>
        simp [ItemizingConcept.assertValidStatus, jsTruthy, he, hm,
          List.contains_iff_exists_mem_beq]

/-- Claim C6: each owner assertion (`assertCreatorIsUser` on items,
`assertExecutorIsUser` on goals, `assertUserIsSender` on messages) fails
with `NotFound` iff no record with the id exists, fails with the conceptˈs
`NotAllowed` subclass carrying the attempted user and the record id iff
the record exists and its stored owner reference differs from the user,
and returns normally iff the record exists and the references match. -/
theorem claim_C6_owner_assertions :
    (∀ (c : Items) (i u : ObjectId),
      (ItemizingConcept.assertCreatorIsUser c i u = .error .notFound
        ↔ c.readOne (fun d => d._id == i) = none)
      ∧ (ItemizingConcept.assertCreatorIsUser c i u
            = .error (.itemCreatorNotMatch u i)
        ↔ ∃ d, c.readOne (fun x => x._id == i) = some d ∧ d.creator ≠ u)
      ∧ (ItemizingConcept.assertCreatorIsUser c i u = .ok ()
        ↔ ∃ d, c.readOne (fun x => x._id == i) = some d ∧ d.creator = u))
    ∧ (∀ (c : Goals) (i u : ObjectId),
      (TrackingConcept.assertExecutorIsUser c i u = .error .notFound
        ↔ c.readOne (fun d => d._id == i) = none)
      ∧ (TrackingConcept.assertExecutorIsUser c i u
            = .error (.goalExecutorNotMatch u i)
        ↔ ∃ d, c.readOne (fun x => x._id == i) = some d ∧ d.executor ≠ u)
      ∧ (TrackingConcept.assertExecutorIsUser c i u = .ok ()
        ↔ ∃ d, c.readOne (fun x => x._id == i) = some d ∧ d.executor = u))
    ∧ (∀ (c : Messages) (u i : ObjectId),
      (MessagingConcept.assertUserIsSender c u i = .error .notFound
        ↔ c.readOne (fun d => d._id == i) = none)
      ∧ (MessagingConcept.assertUserIsSender c u i
            = .error (.userNotSender u i)
        ↔ ∃ d, c.readOne (fun x => x._id == i) = some d ∧ d.«from» ≠ u)
      ∧ (MessagingConcept.assertUserIsSender c u i = .ok ()
        ↔ ∃ d, c.readOne (fun x => x._id == i) = some d ∧ d.«from» = u)) := by
  refine ⟨fun c i u => ?_, fun c i u => ?_, fun c u i => ?_⟩
  · cases h : c.readOne (fun d => d._id == i) with
    | none => simp [ItemizingConcept.assertCreatorIsUser, h]
    | some d =>
      by_cases hc : d.creator = u <;>
        simp [ItemizingConcept.assertCreatorIsUser, h, hc]
  · cases h : c.readOne (fun d => d._id == i) with
    | none => simp [TrackingConcept.assertExecutorIsUser, h]
    | some d =>
      by_cases hc : d.executor = u <;>
        simp [TrackingConcept.assertExecutorIsUser, h, hc]
  · cases h : c.readOne (fun d => d._id == i) with
    | none => simp [MessagingConcept.assertUserIsSender, h]
    | some d =>
      by_cases hc : d.«from» = u <;>
        simp [MessagingConcept.assertUserIsSender, h, hc]

/-- Claim C7: calling `update` / `edit` on an existing record with every
optional field omitted rewrites each field with its prior value, so the
resulting record equals the prior one except for the store-assigned
`dateUpdated` timestamp. -/
theorem claim_C7_update_noop :
    (∀ (now : Time) (c : Items) (i : ObjectId) (d : ItemDoc),
      c.readOne (fun x => x._id == i) = some d →
      ∃ c1, ItemizingConcept.update now c i none none none
          = .ok (some { d with dateUpdated := now }, c1))
    ∧ (∀ (now : Time) (c : Goals) (i : ObjectId) (d : GoalDoc),
      c.readOne (fun x => x._id == i) = some d →
      ∃ c1, TrackingConcept.edit now c i none none none none
          = .ok (some { d with dateUpdated := now }, c1))
    ∧ (∀ (now : Time) (c : Profiles) (u : ObjectId) (d : ProfileDoc),
      c.readOne (fun x => x.user == u) = some d →
      ∃ c1, ProfilingConcept.update now c u none none none
          = .ok (some { d with dateUpdated := now }, c1)) := by
  refine ⟨fun now c i d h => ?_, fun now c i d h => ?_,
    fun now c u d h => ?_⟩
  · have h2 : List.find? (fun x => x._id == i) c.docs = some d := h
    have key : ItemizingConcept.update now c i none none none
        = .ok (some { d with dateUpdated := now },
            c.partialUpdateOne now (fun x => x._id == i) (fun x =>
              { x with title := d.title, description := d.description,
                       status := d.status })) := by
      simp only [ItemizingConcept.update, DocCollection.readOne,
        DocCollection.partialUpdateOne, h2]
      rw [find?_updateFirst_same (p := fun x : ItemDoc => x._id == i)
        (u := fun x : ItemDoc => StoreDoc.setUpdated now
          { x with title := d.title, description := d.description,
                   status := d.status }) (fun x => rfl) h2]
      rfl
    exact ⟨_, key⟩
  · have h2 : List.find? (fun x => x._id == i) c.docs = some d := h
    have key : TrackingConcept.edit now c i none none none none
        = .ok (some { d with dateUpdated := now },
            c.partialUpdateOne now (fun x => x._id == i) (fun x =>
              { x with title := d.title, description := d.description,
                       status := d.status, due := d.due })) := by
      simp only [TrackingConcept.edit, DocCollection.readOne,
        DocCollection.partialUpdateOne, h2]
      rw [find?_updateFirst_same (p := fun x : GoalDoc => x._id == i)
        (u := fun x : GoalDoc => StoreDoc.setUpdated now
          { x with title := d.title, description := d.description,
                   status := d.status, due := d.due }) (fun x => rfl) h2]
      rfl
    exact ⟨_, key⟩
  · have h2 : List.find? (fun x => x.user == u) c.docs = some d := h
    have key : ProfilingConcept.update now c u none none none
        = .ok (some { d with dateUpdated := now },
            c.partialUpdateOne now (fun x => x.user == u) (fun x =>
              { x with name := d.name, contact := d.contact,
                       bio := d.bio })) := by
      simp only [ProfilingConcept.update, ProfilingConcept.viewProfile,
        DocCollection.readOne, DocCollection.partialUpdateOne, h2]
      rw [find?_updateFirst_same (p := fun x : ProfileDoc => x.user == u)
        (u := fun x : ProfileDoc => StoreDoc.setUpdated now
          { x with name := d.name, contact := d.contact,
                   bio := d.bio }) (fun x => rfl) h2]
      rfl
    exact ⟨_, key⟩

/-- Witness for C7 at one-record stores for each of the three concepts. -/
theorem claim_C7_witness :
    (∃ c1, ItemizingConcept.update 9
        ⟨[⟨0, 3, 3, 5, "t", "descr", none⟩], 1⟩ 0 none none none
      = .ok (some ⟨0, 3, 9, 5, "t", "descr", none⟩, c1))
    ∧ (∃ c1, TrackingConcept.edit 9
        ⟨[⟨0, 3, 3, 5, "g", none, "pending", 7⟩], 1⟩ 0 none none none none
      = .ok (some ⟨0, 3, 9, 5, "g", none, "pending", 7⟩, c1))
    ∧ (∃ c1, ProfilingConcept.update 9
        ⟨[⟨0, 3, 3, 5, "Ann", none, none⟩], 1⟩ 5 none none none
      = .ok (some ⟨0, 3, 9, 5, "Ann", none, none⟩, c1)) := by
  exact ⟨claim_C7_update_noop.1 9 ⟨[⟨0, 3, 3, 5, "t", "descr", none⟩], 1⟩ 0
      ⟨0, 3, 3, 5, "t", "descr", none⟩ rfl,
    claim_C7_update_noop.2.1 9 ⟨[⟨0, 3, 3, 5, "g", none, "pending", 7⟩], 1⟩ 0
      ⟨0, 3, 3, 5, "g", none, "pending", 7⟩ rfl,
    claim_C7_update_noop.2.2 9 ⟨[⟨0, 3, 3, 5, "Ann", none, none⟩], 1⟩ 5
      ⟨0, 3, 3, 5, "Ann", none, none⟩ rfl⟩

/-- Claim C10: for an existing message, `assertSenderOrReceiver` raises
`UserNotMatchError` exactly when the acting user differs from the sender
and equals the recipient; in every other case (the sender, or a third
party who is neither sender nor recipient) it returns without error. -/
theorem claim_C10_assertSenderOrReceiver_characterization
    (c : Messages) (user _id : ObjectId) (m : MessageDoc)
    (h : c.readOne (fun d => d._id == _id) = some m) :
    (MessagingConcept.assertSenderOrReceiver c user _id
        = .error (.userNotMatch user _id)
      ↔ (m.«from» ≠ user ∧ m.«to» = user))
    ∧ (MessagingConcept.assertSenderOrReceiver c user _id = .ok ()
      ↔ ¬(m.«from» ≠ user ∧ m.«to» = user)) := by
  have hcond : (m.«from» != user && m.«to» == user) = true
      ↔ (m.«from» ≠ user ∧ m.«to» = user) := by
    simp
  by_cases hb : (m.«from» != user && m.«to» == user) = true
  · simp [MessagingConcept.assertSenderOrReceiver, h, hb, hcond.mp hb]
  · simp [MessagingConcept.assertSenderOrReceiver, h, hb,
      hcond.not.mp hb]

/-- Witness for C10: in a one-message store (sender 1, recipient 2), a
third user 3 passes the assertion. -/
theorem claim_C10_witness :
    MessagingConcept.assertSenderOrReceiver
      ⟨[⟨0, 0, 0, 1, 2, "hi", none, some true, some 0, none, none, none,
         none, none, none⟩], 1⟩ 3 0 = .ok () := by
  exact (claim_C10_assertSenderOrReceiver_characterization
    ⟨[⟨0, 0, 0, 1, 2, "hi", none, some true, some 0, none, none, none,
       none, none, none⟩], 1⟩ 3 0
    ⟨0, 0, 0, 1, 2, "hi", none, some true, some 0, none, none, none,
     none, none, none⟩ rfl).2.mpr (by decide)

/-- Helper for C4: after the two `editSent` writes, the sender copy at
id `i` and the received copy at id `r` both carry the updated message
and attachment. -/
theorem editSent_core (now : Time) (c : Messages) (i r : ObjectId)
    (m mr : MessageDoc) (updM : String) (updA : Option ObjectId)
    (hm2 : List.find? (fun d => d._id == i) c.docs = some m)
    (hlink : m.receivedMessageID = some r)
    (hmr2 : List.find? (fun d => d._id == r) c.docs = some mr)
    (hne : i ≠ r) :
    List.find? (fun d => d._id == i)
      (updateFirst (fun d => m.receivedMessageID == some d._id)
        (MessagingConcept.editSentUpdate now updM updA)
        (updateFirst (fun d => d._id == i)
          (MessagingConcept.editSentUpdate now updM updA) c.docs))
      = some (MessagingConcept.editSentUpdate now updM updA m)
    ∧ List.find? (fun d => d._id == r)
      (updateFirst (fun d => m.receivedMessageID == some d._id)
        (MessagingConcept.editSentUpdate now updM updA)
        (updateFirst (fun d => d._id == i)
          (MessagingConcept.editSentUpdate now updM updA) c.docs))
      = some (MessagingConcept.editSentUpdate now updM updA mr) := by
  have hir : ∀ x : MessageDoc, (x._id == i) = true → (x._id == r) = false := by
    intro x hx
    have hxi : x._id = i := by simpa using hx
    simp [hxi, hne]
  have hri : ∀ x : MessageDoc, (x._id == r) = true → (x._id == i) = false := by
    intro x hx
    have hxr : x._id = r := by simpa using hx
    simp [hxr, Ne.symm hne]
  have hfl1i : (updateFirst (fun d => d._id == i)
        (MessagingConcept.editSentUpdate now updM updA)
        c.docs).find? (fun d => d._id == i)
      = some (MessagingConcept.editSentUpdate now updM updA m) :=
    find?_updateFirst_same (p := fun d : MessageDoc => d._id == i)
      (u := MessagingConcept.editSentUpdate now updM updA)
      (fun x => rfl) hm2
  have hfl1r : (updateFirst (fun d => d._id == i)
        (MessagingConcept.editSentUpdate now updM updA)
        c.docs).find? (fun d => d._id == r) = some mr :=
    (find?_updateFirst_other (p := fun d : MessageDoc => d._id == i)
      (q := fun d : MessageDoc => d._id == r)
      (u := MessagingConcept.editSentUpdate now updM updA)
      (fun x => rfl) hri).trans hmr2
  have hcongr : updateFirst (fun d => m.receivedMessageID == some d._id)
        (MessagingConcept.editSentUpdate now updM updA)
        (updateFirst (fun d => d._id == i)
          (MessagingConcept.editSentUpdate now updM updA) c.docs)
      = updateFirst (fun d => d._id == r)
        (MessagingConcept.editSentUpdate now updM updA)
        (updateFirst (fun d => d._id == i)
          (MessagingConcept.editSentUpdate now updM updA) c.docs) := by
    refine updateFirst_congr _ _ (fun x => ?_)
    rw [hlink]
    by_cases hz : x._id = r
    · simp [hz]
    · simp [hz, Ne.symm hz]
  constructor
  · rw [hcongr]
    exact (find?_updateFirst_other (p := fun d : MessageDoc => d._id == r)
      (q := fun d : MessageDoc => d._id == i)
      (u := MessagingConcept.editSentUpdate now updM updA)
      (fun x => rfl) hir).trans hfl1i
  · rw [hcongr]
    exact find?_updateFirst_same (p := fun d : MessageDoc => d._id == r)
      (u := MessagingConcept.editSentUpdate now updM updA)
      (fun x => rfl) hfl1r

/-- Claim C4: `editSent` on a sent message with a linked received copy
writes the same updated text (and attachment, when supplied) onto both
the sent record and its linked received record, so afterwards the two
copies agree on message text (and attachment). -/
theorem claim_C4_editSent_mirrors (now : Time) (c : Messages) (i r : ObjectId)
    (m mr : MessageDoc) (msg : Option String) (att : Option ObjectId)
    (hm : c.readOne (fun d => d._id == i) = some m)
    (hlink : m.receivedMessageID = some r)
    (hmr : c.readOne (fun d => d._id == r) = some mr)
    (hsent : m.sent = some true)
    (hne : i ≠ r) :
    ∃ c2 ds dr,
      MessagingConcept.editSent now c i msg att = .ok (some ds, c2)
      ∧ c2.readOne (fun d => d._id == i) = some ds
      ∧ c2.readOne (fun d => d._id == r) = some dr
      ∧ ds.message = msg.getD m.message
      ∧ dr.message = msg.getD m.message
      ∧ ds.message = dr.message
      ∧ ds.attachment = dr.attachment := by
  have hm2 : List.find? (fun d => d._id == i) c.docs = some m := hm
  have hmr2 : List.find? (fun d => d._id == r) c.docs = some mr := hmr
  cases msg with
  | some t =>
    cases att with
    | some a =>
      obtain ⟨hci, hcr⟩ := editSent_core now c i r m mr t (some a) hm2 hlink hmr2 hne
      have key : MessagingConcept.editSent now c i (some t) (some a)
          = .ok ((⟨updateFirst (fun d => m.receivedMessageID == some d._id)
                (MessagingConcept.editSentUpdate now t (some a))
                (updateFirst (fun d => d._id == i)
                  (MessagingConcept.editSentUpdate now t (some a)) c.docs),
              c.nextId⟩ : Messages).readOne (fun d => d._id == i),
            ⟨updateFirst (fun d => m.receivedMessageID == some d._id)
                (MessagingConcept.editSentUpdate now t (some a))
                (updateFirst (fun d => d._id == i)
                  (MessagingConcept.editSentUpdate now t (some a)) c.docs),
              c.nextId⟩) := by
        simp only [MessagingConcept.editSent, hm]
        rfl
      refine ⟨⟨updateFirst (fun d => m.receivedMessageID == some d._id)
                (MessagingConcept.editSentUpdate now t (some a))
                (updateFirst (fun d => d._id == i)
                  (MessagingConcept.editSentUpdate now t (some a)) c.docs), c.nextId⟩,
        MessagingConcept.editSentUpdate now t (some a) m,
        MessagingConcept.editSentUpdate now t (some a) mr,
        ?_, hci, hcr, rfl, rfl, rfl, rfl⟩
      rw [key]
      have hro : (⟨updateFirst (fun d => m.receivedMessageID == some d._id)
                (MessagingConcept.editSentUpdate now t (some a))
                (updateFirst (fun d => d._id == i)
                  (MessagingConcept.editSentUpdate now t (some a)) c.docs),
          c.nextId⟩ : Messages).readOne (fun d => d._id == i)
          = some (MessagingConcept.editSentUpdate now t (some a) m) := hci
      rw [hro]
    | none =>
      obtain ⟨hci, hcr⟩ := editSent_core now c i r m mr t m.attachment hm2 hlink hmr2 hne
      have key : MessagingConcept.editSent now c i (some t) none
          = .ok ((⟨updateFirst (fun d => m.receivedMessageID == some d._id)
                (MessagingConcept.editSentUpdate now t m.attachment)
                (updateFirst (fun d => d._id == i)
                  (MessagingConcept.editSentUpdate now t m.attachment) c.docs),
              c.nextId⟩ : Messages).readOne (fun d => d._id == i),
            ⟨updateFirst (fun d => m.receivedMessageID == some d._id)
                (MessagingConcept.editSentUpdate now t m.attachment)
                (updateFirst (fun d => d._id == i)
                  (MessagingConcept.editSentUpdate now t m.attachment) c.docs),
              c.nextId⟩) := by
        simp only [MessagingConcept.editSent, hm]
        rfl
      refine ⟨⟨updateFirst (fun d => m.receivedMessageID == some d._id)
                (MessagingConcept.editSentUpdate now t m.attachment)
                (updateFirst (fun d => d._id == i)
                  (MessagingConcept.editSentUpdate now t m.attachment) c.docs), c.nextId⟩,
        MessagingConcept.editSentUpdate now t m.attachment m,
        MessagingConcept.editSentUpdate now t m.attachment mr,
        ?_, hci, hcr, rfl, rfl, rfl, rfl⟩
      rw [key]
      have hro : (⟨updateFirst (fun d => m.receivedMessageID == some d._id)
                (MessagingConcept.editSentUpdate now t m.attachment)
                (updateFirst (fun d => d._id == i)
                  (MessagingConcept.editSentUpdate now t m.attachment) c.docs),
          c.nextId⟩ : Messages).readOne (fun d => d._id == i)
          = some (MessagingConcept.editSentUpdate now t m.attachment m) := hci
      rw [hro]
  | none =>
    cases att with
    | some a =>
      obtain ⟨hci, hcr⟩ := editSent_core now c i r m mr m.message (some a) hm2 hlink hmr2 hne
      have key : MessagingConcept.editSent now c i none (some a)
          = .ok ((⟨updateFirst (fun d => m.receivedMessageID == some d._id)
                (MessagingConcept.editSentUpdate now m.message (some a))
                (updateFirst (fun d => d._id == i)
                  (MessagingConcept.editSentUpdate now m.message (some a)) c.docs),
              c.nextId⟩ : Messages).readOne (fun d => d._id == i),
            ⟨updateFirst (fun d => m.receivedMessageID == some d._id)
                (MessagingConcept.editSentUpdate now m.message (some a))
                (updateFirst (fun d => d._id == i)
                  (MessagingConcept.editSentUpdate now m.message (some a)) c.docs),
              c.nextId⟩) := by
        simp only [MessagingConcept.editSent, hm]
        rfl
      refine ⟨⟨updateFirst (fun d => m.receivedMessageID == some d._id)
                (MessagingConcept.editSentUpdate now m.message (some a))
                (updateFirst (fun d => d._id == i)
                  (MessagingConcept.editSentUpdate now m.message (some a)) c.docs), c.nextId⟩,
        MessagingConcept.editSentUpdate now m.message (some a) m,
        MessagingConcept.editSentUpdate now m.message (some a) mr,
        ?_, hci, hcr, rfl, rfl, rfl, rfl⟩
      rw [key]
      have hro : (⟨updateFirst (fun d => m.receivedMessageID == some d._id)
                (MessagingConcept.editSentUpdate now m.message (some a))
                (updateFirst (fun d => d._id == i)
                  (MessagingConcept.editSentUpdate now m.message (some a)) c.docs),
          c.nextId⟩ : Messages).readOne (fun d => d._id == i)
          = some (MessagingConcept.editSentUpdate now m.message (some a) m) := hci
      rw [hro]
    | none =>
      obtain ⟨hci, hcr⟩ := editSent_core now c i r m mr m.message m.attachment hm2 hlink hmr2 hne
      have key : MessagingConcept.editSent now c i none none
          = .ok ((⟨updateFirst (fun d => m.receivedMessageID == some d._id)
                (MessagingConcept.editSentUpdate now m.message m.attachment)
                (updateFirst (fun d => d._id == i)
                  (MessagingConcept.editSentUpdate now m.message m.attachment) c.docs),
              c.nextId⟩ : Messages).readOne (fun d => d._id == i),
            ⟨updateFirst (fun d => m.receivedMessageID == some d._id)
                (MessagingConcept.editSentUpdate now m.message m.attachment)
                (updateFirst (fun d => d._id == i)
                  (MessagingConcept.editSentUpdate now m.message m.attachment) c.docs),
              c.nextId⟩) := by
        simp only [MessagingConcept.editSent, hm]
        rfl
      refine ⟨⟨updateFirst (fun d => m.receivedMessageID == some d._id)
                (MessagingConcept.editSentUpdate now m.message m.attachment)
                (updateFirst (fun d => d._id == i)
                  (MessagingConcept.editSentUpdate now m.message m.attachment) c.docs), c.nextId⟩,
        MessagingConcept.editSentUpdate now m.message m.attachment m,
        MessagingConcept.editSentUpdate now m.message m.attachment mr,
        ?_, hci, hcr, rfl, rfl, rfl, rfl⟩
      rw [key]
      have hro : (⟨updateFirst (fun d => m.receivedMessageID == some d._id)
                (MessagingConcept.editSentUpdate now m.message m.attachment)
                (updateFirst (fun d => d._id == i)
                  (MessagingConcept.editSentUpdate now m.message m.attachment) c.docs),
          c.nextId⟩ : Messages).readOne (fun d => d._id == i)
          = some (MessagingConcept.editSentUpdate now m.message m.attachment m) := hci
      rw [hro]


/-- Witness for C4: editing message 0 of a concrete sent pair (sender
copy 0 linked
 by `receivedMessageID` 1) with new text "bye". -/
theorem claim_C4_witness :
    ∃ c2 ds dr,
      MessagingConcept.editSent 2
        ⟨[⟨0, 0, 1, 10, 20, "hi", none, none, none, some true, some 1,
           some 1, none, none, none⟩,
          ⟨1, 1, 1, 10, 20, "hi", none, none, none, none, none, none,
           some true, some 1, some 0⟩], 2⟩ 0 (some "bye") none
        = .ok (some ds, c2)
      ∧ c2.readOne (fun d => d._id == 0) = some ds
      ∧ c2.readOne (fun d => d._id == 1) = some dr
      ∧ ds.message = (some "bye").getD "hi"
      ∧ dr.message = (some "bye").getD "hi"
      ∧ ds.message = dr.message
      ∧ ds.attachment = dr.attachment := by
  exact claim_C4_editSent_mirrors 2
    ⟨[⟨0, 0, 1, 10, 20, "hi", none, none, none, some true, some 1,
       some 1, none, none, none⟩,
      ⟨1, 1, 1, 10, 20, "hi", none, none, none, none, none, none,
       some true, some 1, some 0⟩], 2⟩ 0 1
    ⟨0, 0, 1, 10, 20, "hi", none, none, none, some true, some 1,
     some 1, none, none, none⟩
    ⟨1, 1, 1, 10, 20, "hi", none, none, none, none, none, none,
     some true, some 1, some 0⟩
    (some "bye") none rfl rfl rfl rfl (by decide)

/-- Claim C1: drafting a message from A to B and then sending it
produces two stored records: the original record now in state `sent`
(sent flag true, draft fields cleared) and a newly created record in
state `received`, with identical message text, with the sent record
referencing the received record through `receivedMessageID` and the
received record referencing the sent record through `sentMessageID`. -/
theorem claim_C1_message_roundtrip (t1 t2 : Time) (c : Messages) (A B : ObjectId)
    (t : String) (att : Option ObjectId)
    (hb : c.Bounded (fun d => d._id)) :
    ∃ d0 rv c2 ds dr,
      (MessagingConcept.draft t1 c A B t att).1 = some d0
      ∧ d0._id = c.nextId
      ∧ MessagingConcept.send t2 (MessagingConcept.draft t1 c A B t att).2
          c.nextId A B = .ok (rv, c2)
      ∧ c2.readOne (fun d => d._id == c.nextId) = some ds
      ∧ c2.readOne (fun d => d._id == c.nextId + 1) = some dr
      ∧ ds.sent = some true ∧ ds.draft = none ∧ ds.timeDrafted = none
      ∧ dr.received = some true ∧ dr.draft = none ∧ dr.sent = none
      ∧ ds.message = t ∧ dr.message = t
      ∧ ds.receivedMessageID = some dr._id
      ∧ dr.sentMessageID = some ds._id := by
  have hpre : ∀ x ∈ c.docs, (x._id == c.nextId) = false := by
    intro x hx
    simpa using Nat.ne_of_lt (hb x hx)
  have hpre1 : ∀ x ∈ c.docs, (x._id == c.nextId + 1) = false := by
    intro x hx
    simpa using Nat.ne_of_lt (Nat.lt_succ_of_lt (hb x hx))
  have hdstate : (MessagingConcept.draft t1 c A B t att).2
      = ⟨c.docs ++ [(⟨c.nextId, t1, t1, A, B, t, att, some true, some t1, none, none, none, none, none, none⟩ : MessageDoc)], c.nextId + 1⟩ := rfl
  have hfind0 : List.find? (fun d => d._id == c.nextId)
      (c.docs ++ [(⟨c.nextId, t1, t1, A, B, t, att, some true, some t1, none, none, none, none, none, none⟩ : MessageDoc)])
      = some (⟨c.nextId, t1, t1, A, B, t, att, some true, some t1, none, none, none, none, none, none⟩ : MessageDoc) := by
    rw [find?_append_left_false hpre]
    exact List.find?_cons_of_pos _ (by simp)
  have hdval : (MessagingConcept.draft t1 c A B t att).1
      = some (⟨c.nextId, t1, t1, A, B, t, att, some true, some t1, none, none, none, none, none, none⟩ : MessageDoc) := hfind0
  have hsfind : (⟨c.docs ++ [(⟨c.nextId, t1, t1, A, B, t, att, some true, some t1, none, none, none, none, none, none⟩ : MessageDoc)], c.nextId + 1⟩
        : Messages).readOne (fun d => d._id == c.nextId)
      = some (⟨c.nextId, t1, t1, A, B, t, att, some true, some t1, none, none, none, none, none, none⟩ : MessageDoc) := hfind0
  have hkey : MessagingConcept.send t2
        (⟨c.docs ++ [(⟨c.nextId, t1, t1, A, B, t, att, some true, some t1, none, none, none, none, none, none⟩ : MessageDoc)], c.nextId + 1⟩ : Messages)
        c.nextId A B
      = .ok ((⟨updateFirst (fun d => d._id == c.nextId) (fun d => StoreDoc.setUpdated t2 { d with draft := none, timeDrafted := none, sent := some true, timeSent := some t2, receivedMessageID := some (c.nextId + 1) }) ((c.docs ++ [(⟨c.nextId, t1, t1, A, B, t, att, some true, some t1, none, none, none, none, none, none⟩ : MessageDoc)]) ++ [(⟨c.nextId + 1, t2, t2, A, B, t, att, none, none, none, none, none, some true, some t2, some c.nextId⟩ : MessageDoc)]), c.nextId + 1 + 1⟩ : Messages).readOne
            (fun d => d._id == c.nextId),
          ⟨updateFirst (fun d => d._id == c.nextId) (fun d => StoreDoc.setUpdated t2 { d with draft := none, timeDrafted := none, sent := some true, timeSent := some t2, receivedMessageID := some (c.nextId + 1) }) ((c.docs ++ [(⟨c.nextId, t1, t1, A, B, t, att, some true, some t1, none, none, none, none, none, none⟩ : MessageDoc)]) ++ [(⟨c.nextId + 1, t2, t2, A, B, t, att, none, none, none, none, none, some true, some t2, some c.nextId⟩ : MessageDoc)]), c.nextId + 1 + 1⟩) := by
    simp only [MessagingConcept.send, hsfind]
    rfl
  have hdocs2 : updateFirst (fun d => d._id == c.nextId) (fun d => StoreDoc.setUpdated t2 { d with draft := none, timeDrafted := none, sent := some true, timeSent := some t2, receivedMessageID := some (c.nextId + 1) }) ((c.docs ++ [(⟨c.nextId, t1, t1, A, B, t, att, some true, some t1, none, none, none, none, none, none⟩ : MessageDoc)]) ++ [(⟨c.nextId + 1, t2, t2, A, B, t, att, none, none, none, none, none, some true, some t2, some c.nextId⟩ : MessageDoc)]) = c.docs ++ [(⟨c.nextId, t1, t2, A, B, t, att, none, none, some true, some t2, some (c.nextId + 1), none, none, none⟩ : MessageDoc), (⟨c.nextId + 1, t2, t2, A, B, t, att, none, none, none, none, none, some true, some t2, some c.nextId⟩ : MessageDoc)] := by
    rw [List.append_assoc, updateFirst_append_left_false hpre]
    simp only [List.singleton_append, updateFirst, beq_self_eq_true, if_true]
    rfl
  have hc2i : (⟨updateFirst (fun d => d._id == c.nextId) (fun d => StoreDoc.setUpdated t2 { d with draft := none, timeDrafted := none, sent := some true, timeSent := some t2, receivedMessageID := some (c.nextId + 1) }) ((c.docs ++ [(⟨c.nextId, t1, t1, A, B, t, att, some true, some t1, none, none, none, none, none, none⟩ : MessageDoc)]) ++ [(⟨c.nextId + 1, t2, t2, A, B, t, att, none, none, none, none, none, some true, some t2, some c.nextId⟩ : MessageDoc)]), c.nextId + 1 + 1⟩ : Messages).readOne
        (fun d => d._id == c.nextId) = some (⟨c.nextId, t1, t2, A, B, t, att, none, none, some true, some t2, some (c.nextId + 1), none, none, none⟩ : MessageDoc) := by
    show List.find? (fun d => d._id == c.nextId) (updateFirst (fun d => d._id == c.nextId) (fun d => StoreDoc.setUpdated t2 { d with draft := none, timeDrafted := none, sent := some true, timeSent := some t2, receivedMessageID := some (c.nextId + 1) }) ((c.docs ++ [(⟨c.nextId, t1, t1, A, B, t, att, some true, some t1, none, none, none, none, none, none⟩ : MessageDoc)]) ++ [(⟨c.nextId + 1, t2, t2, A, B, t, att, none, none, none, none, none, some true, some t2, some c.nextId⟩ : MessageDoc)])) = some (⟨c.nextId, t1, t2, A, B, t, att, none, none, some true, some t2, some (c.nextId + 1), none, none, none⟩ : MessageDoc)
    rw [hdocs2, find?_append_left_false hpre]
    exact List.find?_cons_of_pos _ (by simp)
  have hc2r : (⟨updateFirst (fun d => d._id == c.nextId) (fun d => StoreDoc.setUpdated t2 { d with draft := none, timeDrafted := none, sent := some true, timeSent := some t2, receivedMessageID := some (c.nextId + 1) }) ((c.docs ++ [(⟨c.nextId, t1, t1, A, B, t, att, some true, some t1, none, none, none, none, none, none⟩ : MessageDoc)]) ++ [(⟨c.nextId + 1, t2, t2, A, B, t, att, none, none, none, none, none, some true, some t2, some c.nextId⟩ : MessageDoc)]), c.nextId + 1 + 1⟩ : Messages).readOne
        (fun d => d._id == c.nextId + 1) = some (⟨c.nextId + 1, t2, t2, A, B, t, att, none, none, none, none, none, some true, some t2, some c.nextId⟩ : MessageDoc) := by
    show List.find? (fun d => d._id == c.nextId + 1) (updateFirst (fun d => d._id == c.nextId) (fun d => StoreDoc.setUpdated t2 { d with draft := none, timeDrafted := none, sent := some true, timeSent := some t2, receivedMessageID := some (c.nextId + 1) }) ((c.docs ++ [(⟨c.nextId, t1, t1, A, B, t, att, some true, some t1, none, none, none, none, none, none⟩ : MessageDoc)]) ++ [(⟨c.nextId + 1, t2, t2, A, B, t, att, none, none, none, none, none, some true, some t2, some c.nextId⟩ : MessageDoc)])) = some (⟨c.nextId + 1, t2, t2, A, B, t, att, none, none, none, none, none, some true, some t2, some c.nextId⟩ : MessageDoc)
    rw [hdocs2, find?_append_left_false hpre1]
    rw [List.find?_cons_of_neg _ (by simp), List.find?_cons_of_pos _ (by simp)]
  have hsend : MessagingConcept.send t2
        (MessagingConcept.draft t1 c A B t att).2 c.nextId A B
      = .ok (some (⟨c.nextId, t1, t2, A, B, t, att, none, none, some true, some t2, some (c.nextId + 1), none, none, none⟩ : MessageDoc), ⟨updateFirst (fun d => d._id == c.nextId) (fun d => StoreDoc.setUpdated t2 { d with draft := none, timeDrafted := none, sent := some true, timeSent := some t2, receivedMessageID := some (c.nextId + 1) }) ((c.docs ++ [(⟨c.nextId, t1, t1, A, B, t, att, some true, some t1, none, none, none, none, none, none⟩ : MessageDoc)]) ++ [(⟨c.nextId + 1, t2, t2, A, B, t, att, none, none, none, none, none, some true, some t2, some c.nextId⟩ : MessageDoc)]), c.nextId + 1 + 1⟩) := by
    rw [hdstate, hkey, hc2i]
  exact ⟨(⟨c.nextId, t1, t1, A, B, t, att, some true, some t1, none, none, none, none, none, none⟩ : MessageDoc), some (⟨c.nextId, t1, t2, A, B, t, att, none, none, some true, some t2, some (c.nextId + 1), none, none, none⟩ : MessageDoc),
    ⟨updateFirst (fun d => d._id == c.nextId) (fun d => StoreDoc.setUpdated t2 { d with draft := none, timeDrafted := none, sent := some true, timeSent := some t2, receivedMessageID := some (c.nextId + 1) }) ((c.docs ++ [(⟨c.nextId, t1, t1, A, B, t, att, some true, some t1, none, none, none, none, none, none⟩ : MessageDoc)]) ++ [(⟨c.nextId + 1, t2, t2, A, B, t, att, none, none, none, none, none, some true, some t2, some c.nextId⟩ : MessageDoc)]), c.nextId + 1 + 1⟩, (⟨c.nextId, t1, t2, A, B, t, att, none, none, some true, some t2, some (c.nextId + 1), none, none, none⟩ : MessageDoc), (⟨c.nextId + 1, t2, t2, A, B, t, att, none, none, none, none, none, some true, some t2, some c.nextId⟩ : MessageDoc),
    hdval, rfl, hsend, hc2i, hc2r, rfl, rfl, rfl, rfl, rfl, rfl, rfl, rfl,
    rfl, rfl⟩


/-- Witness for C1 from the empty store: draft at time 0, send at time 1. -/
theorem claim_C1_witness :
    ∃ d0 rv c2 ds dr,
      (MessagingConcept.draft 0 (DocCollection.empty : Messages) 10 20 "hi"
          none).1 = some d0
      ∧ d0._id = (DocCollection.empty : Messages).nextId
      ∧ MessagingConcept.send 1
          (MessagingConcept.draft 0 (DocCollection.empty : Messages) 10 20
            "hi" none).2
          (DocCollection.empty : Messages).nextId 10 20 = .ok (rv, c2)
      ∧ c2.readOne (fun d =>
          d._id == (DocCollection.empty : Messages).nextId) = some ds
      ∧ c2.readOne (fun d =>
          d._id == (DocCollection.empty : Messages).nextId + 1) = some dr
      ∧ ds.sent = some true ∧ ds.draft = none ∧ ds.timeDrafted = none
      ∧ dr.received = some true ∧ dr.draft = none ∧ dr.sent = none
      ∧ ds.message = "hi" ∧ dr.message = "hi"
      ∧ ds.receivedMessageID = some dr._id
      ∧ dr.sentMessageID = some ds._id :=
  claim_C1_message_roundtrip 0 1 (DocCollection.empty : Messages) 10 20 "hi"
    none (fun d hd => absurd hd (List.not_mem_nil d))

/-- Helper for C3: the status sweep leaves the document found at any id
not named in the processed list untouched. -/
theorem sweep_foldl_find?_other (now : Time) (i : Nat) :
    ∀ (l : List GoalDoc) (st : Goals), (∀ g' ∈ l, g'._id ≠ i) →
    ((l.foldl (fun st goal =>
        if goal.due < now then
          st.partialUpdateOne now (fun d => d._id == goal._id)
            (fun d => { d with status := "past due" })
        else st) st).docs.find? (fun d => d._id == i))
      = st.docs.find? (fun d => d._id == i) := by
  intro l
  induction l with
  | nil => intro st h; rfl
  | cons g' l ih =>
    intro st h
    rw [List.foldl_cons]
    rw [ih _ (fun x hx => h x (List.mem_cons_of_mem _ hx))]
    by_cases hd : g'.due < now
    · rw [if_pos hd]
      refine find?_updateFirst_other
        (p := fun d : GoalDoc => d._id == g'._id)
        (q := fun d : GoalDoc => d._id == i)
        (u := fun d : GoalDoc => StoreDoc.setUpdated now
          { d with status := "past due" })
        (fun x => rfl) ?_
      intro x hx
      have hxi : x._id = i := by simpa using hx
      have hgi : g'._id ≠ i := h g' (List.mem_cons_self _ _)
      simp [hxi, Ne.symm hgi]
    · rw [if_neg hd]

/-- Claim C3: `create` assigns status "past due" when the supplied due
date is strictly earlier than the current time and "pending" otherwise;
and for a stored goal in state "pending" whose due date has passed, an
`updateGoalStatuses` sweep run at that later time rewrites that goal
with status "past due". -/
theorem claim_C3_goal_status :
    (∀ (now : Time) (c : Goals) (e : ObjectId) (title : String) (due : Time)
        (descr : Option String), c.Bounded (fun d => d._id) →
      ∃ g, (TrackingConcept.create now c e title due descr).1 = some g
        ∧ g.status = (if due < now then "past due" else "pending")
        ∧ g.due = due ∧ g.executor = e)
    ∧ (∀ (now : Time) (c : Goals) (g : GoalDoc),
        c.docs.Pairwise (fun a b => a._id ≠ b._id) →
        g ∈ c.docs → g.status = "pending" → g.due < now →
      (TrackingConcept.updateGoalStatuses now c).readOne
          (fun d => d._id == g._id)
        = some { g with status := "past due", dateUpdated := now }) := by
  constructor
  · intro now c e title due descr hb
    have hpre : ∀ x ∈ c.docs, (x._id == c.nextId) = false := by
      intro x hx
      simpa using Nat.ne_of_lt (hb x hx)
    have hfind : List.find? (fun d => d._id == c.nextId)
        (c.docs ++ [(⟨c.nextId, now, now, e, title, descr,
            if due < now then "past due" else "pending", due⟩ : GoalDoc)])
        = some (⟨c.nextId, now, now, e, title, descr,
            if due < now then "past due" else "pending", due⟩ : GoalDoc) := by
      rw [find?_append_left_false hpre]
      exact List.find?_cons_of_pos _ (by simp)
    exact ⟨⟨c.nextId, now, now, e, title, descr,
        if due < now then "past due" else "pending", due⟩,
      hfind, rfl, rfl, rfl⟩
  · intro now c g hp hmem hpend hdue
    have hmf : g ∈ c.docs.filter (fun d => d.status == "pending") :=
      List.mem_filter.mpr ⟨hmem, by simp [hpend]⟩
    obtain ⟨l1, l2, hsplit⟩ := List.append_of_mem hmf
    have hpw : (c.docs.filter (fun d => d.status == "pending")).Pairwise
        (fun a b => a._id ≠ b._id) :=
      List.Pairwise.sublist (List.filter_sublist _) hp
    rw [hsplit] at hpw
    have hparts := List.pairwise_append.mp hpw
    have h1 : ∀ a ∈ l1, a._id ≠ g._id :=
      fun a ha => hparts.2.2 a ha g (List.mem_cons_self _ _)
    have h2 : ∀ b ∈ l2, b._id ≠ g._id := by
      intro b hb
      exact Ne.symm ((List.pairwise_cons.mp hparts.2.1).1 b hb)
    have hfind : c.docs.find? (fun d => d._id == g._id) = some g :=
      find?_pairwise_eq_some hp hmem
    show ((c.docs.filter (fun d => d.status == "pending")).foldl
        (fun st goal =>
          if goal.due < now then
            st.partialUpdateOne now (fun d => d._id == goal._id)
              (fun d => { d with status := "past due" })
          else st) c).docs.find? (fun d => d._id == g._id)
      = some { g with status := "past due", dateUpdated := now }
    rw [hsplit, List.foldl_append, List.foldl_cons]
    rw [sweep_foldl_find?_other now g._id l2 _ h2]
    have hst1 : ((l1.foldl (fun st goal =>
        if goal.due < now then
          st.partialUpdateOne now (fun d => d._id == goal._id)
            (fun d => { d with status := "past due" })
        else st) c).docs.find? (fun d => d._id == g._id)) = some g :=
      (sweep_foldl_find?_other now g._id l1 c h1).trans hfind
    rw [if_pos hdue]
    have := find?_updateFirst_same
      (p := fun d : GoalDoc => d._id == g._id)
      (u := fun d : GoalDoc => StoreDoc.setUpdated now
        { d with status := "past due" })
      (fun x => rfl) hst1
    exact this


/-- Witness for C3: goal created at time 10 with due date 3 is past due,
and the sweep at time 10 reclassifies a stored pending goal due at 3. -/
theorem claim_C3_witness :
    (∃ g, (TrackingConcept.create 10 (DocCollection.empty : Goals) 5 "g" 3
          none).1 = some g
      ∧ g.status = (if 3 < 10 then "past due" else "pending")
      ∧ g.due = 3 ∧ g.executor = 5)
    ∧ (TrackingConcept.updateGoalStatuses 10
          ⟨[⟨0, 0, 0, 5, "g", none, "pending", 3⟩], 1⟩).readOne
        (fun d => d._id == (⟨0, 0, 0, 5, "g", none, "pending", 3⟩
          : GoalDoc)._id)
      = some { (⟨0, 0, 0, 5, "g", none, "pending", 3⟩ : GoalDoc) with
          status := "past due", dateUpdated := 10 } := by
  constructor
  · exact claim_C3_goal_status.1 10 (DocCollection.empty : Goals) 5 "g" 3
      none (fun d hd => absurd hd (List.not_mem_nil d))
  · exact claim_C3_goal_status.2 10
      ⟨[⟨0, 0, 0, 5, "g", none, "pending", 3⟩], 1⟩
      ⟨0, 0, 0, 5, "g", none, "pending", 3⟩
      (List.pairwise_singleton _ _) (List.mem_singleton_self _) rfl
      (by decide)

/-- Helper for C9: a second `createProfile` for a user with a stored
profile fails with the profile-exists error. -/
theorem createProfile_eq_error {c : Profiles} {u : ObjectId}
    {p : ProfileDoc} (h : c.readOne (fun d => d.user == u) = some p)
    (now : Time) (nm : String) (ct b : Option String) :
    Routes.createProfile now c u nm ct b
      = .error (.userProfileExists u) := by
  simp only [Routes.createProfile, ProfilingConcept.assertProfileDoesNotExist,
    h, Except.map]

/-- Helper for C9: `createProfile` succeeds when no profile is stored. -/
theorem createProfile_eq_ok {c : Profiles} {u : ObjectId}
    (h : c.readOne (fun d => d.user == u) = none)
    (now : Time) (nm : String) (ct b : Option String) :
    Routes.createProfile now c u nm ct b
      = .ok (ProfilingConcept.create now c u nm ct b) := by
  simp only [Routes.createProfile, ProfilingConcept.assertProfileDoesNotExist,
    h, Except.map]

/-- Helper for C9: a successful `createProfile` implies the user had no
profile and appends exactly one new profile record. -/
theorem createProfile_ok_inv {now : Time} {c : Profiles} {u : ObjectId}
    {nm : String} {ct b : Option String} {r : Option ProfileDoc}
    {c1 : Profiles}
    (h : Routes.createProfile now c u nm ct b = .ok (r, c1)) :
    c.readOne (fun d => d.user == u) = none
    ∧ c1.docs = c.docs ++ [⟨c.nextId, now, now, u, nm, ct, b⟩] := by
  cases hr : c.readOne (fun d => d.user == u) with
  | some p =>
    rw [createProfile_eq_error hr now nm ct b] at h
    cases h
  | none =>
    rw [createProfile_eq_ok hr now nm ct b] at h
    refine ⟨rfl, ?_⟩
    have hpair : ProfilingConcept.create now c u nm ct b = (r, c1) := by
      cases h
      rfl
    have hc1 : c1 = (ProfilingConcept.create now c u nm ct b).2 := by
      rw [hpair]
    rw [hc1]
    rfl

/-- Helper for C9: a successful `deleteProfile` removes the first stored
profile with that user reference. -/
theorem deleteProfile_ok_inv {c : Profiles} {u : ObjectId} {c1 : Profiles}
    (h : Routes.deleteProfile c u = .ok c1) :
    c1.docs = deleteFirst (fun d => d.user == u) c.docs := by
  cases hr : c.readOne (fun d => d.user == u) with
  | none =>
    simp only [Routes.deleteProfile, ProfilingConcept.assertProfileExists,
      hr, Except.map] at h
    exact Except.noConfusion h
  | some p =>
    simp only [Routes.deleteProfile, ProfilingConcept.assertProfileExists,
      hr, Except.map] at h
    cases h
    rfl

/-- Helper for C9: `updateProfile` preserves the number of profiles per
user reference (the update rewrites name, contact and bio only). -/
theorem updateProfile_ok_count {now : Time} {c : Profiles} {u : ObjectId}
    {nm ct b : Option String} {r : Option ProfileDoc} {c1 : Profiles}
    (h : Routes.updateProfile now c u nm ct b = .ok (r, c1))
    (u0 : ObjectId) :
    (c1.docs.filter (fun d => d.user == u0)).length
      = (c.docs.filter (fun d => d.user == u0)).length := by
  cases hr : c.readOne (fun d => d.user == u) with
  | none =>
    simp only [Routes.updateProfile, ProfilingConcept.assertProfileExists,
      hr, Except.bind] at h
    exact Except.noConfusion h
  | some p =>
    simp only [Routes.updateProfile, ProfilingConcept.assertProfileExists,
      ProfilingConcept.update, ProfilingConcept.viewProfile,
      hr, Except.bind] at h
    injection h with h2
    have h5 := congrArg Prod.snd h2
    dsimp only at h5
    rw [← h5]
    refine filter_updateFirst_length ?_ c.docs
    intro x
    rfl

/-- Helper for C9: every store reachable through the profile endpoints
keeps at most one profile per user reference. -/
theorem profile_atMostOne_of_reachable :
    ∀ c : Profiles, ProfReachable c → AtMostOnePerUser c := by
  intro c hreach
  induction hreach with
  | init =>
    intro u
    simp [DocCollection.empty]
  | createStep hprev heq ih =>
    obtain ⟨hnone, hdocs⟩ := createProfile_ok_inv heq
    intro u0
    rw [hdocs, List.filter_append]
    rename_i now c2 user nm contact bio r c3
    have hfe : c2.docs.filter (fun d => d.user == user) = [] :=
      List.filter_eq_nil_iff.mpr (List.find?_eq_none.mp hnone)
    by_cases hu : user = u0
    · subst hu
      rw [hfe]
      simp
    · have : (List.filter (fun d => d.user == u0)
          [(⟨c2.nextId, now, now, user, nm, contact, bio⟩ : ProfileDoc)])
          = [] := by
        simp [hu]
      rw [this, List.append_nil]
      exact ih u0
  | deleteStep hprev heq ih =>
    have hdocs := deleteProfile_ok_inv heq
    intro u0
    rw [hdocs]
    refine le_trans
      (List.Sublist.length_le (List.Sublist.filter _ (deleteFirst_sublist _ _)))
      (ih u0)
  | updateStep hprev heq ih =>
    intro u0
    rw [updateProfile_ok_count heq u0]
    exact ih u0


/-- Claim C9: from any reachable profile store, after `createProfile`
succeeds for user U a second `createProfile` for U fails with the
profile-exists error and exactly one profile with user reference U is
stored; after a successful `deleteProfile` for U, `createProfile` for U
succeeds again; and every reachable store has at most one profile per
user reference. -/
theorem claim_C9_profile_uniqueness :
    (∀ (now : Time) (c : Profiles) (u : ObjectId) (nm : String)
        (ct b : Option String) (r : Option ProfileDoc) (c1 : Profiles),
      ProfReachable c →
      Routes.createProfile now c u nm ct b = .ok (r, c1) →
      (∀ (now2 : Time) (nm2 : String) (ct2 b2 : Option String),
        Routes.createProfile now2 c1 u nm2 ct2 b2
          = .error (.userProfileExists u))
      ∧ (c1.docs.filter (fun d => d.user == u)).length = 1)
    ∧ (∀ (c : Profiles) (u : ObjectId) (c1 : Profiles),
      ProfReachable c →
      Routes.deleteProfile c u = .ok c1 →
      ∀ (now : Time) (nm : String) (ct b : Option String),
        ∃ r c2, Routes.createProfile now c1 u nm ct b = .ok (r, c2))
    ∧ (∀ c : Profiles, ProfReachable c → AtMostOnePerUser c) := by
  refine ⟨?_, ?_, profile_atMostOne_of_reachable⟩
  · intro now c u nm ct b r c1 hreach heq
    obtain ⟨hnone, hdocs⟩ := createProfile_ok_inv heq
    have hpre : ∀ x ∈ c.docs, (x.user == u) = false := by
      intro x hx
      simpa using List.find?_eq_none.mp hnone x hx
    have hfindc1 : c1.docs.find? (fun d => d.user == u)
        = some ⟨c.nextId, now, now, u, nm, ct, b⟩ := by
      rw [hdocs, find?_append_left_false hpre]
      exact List.find?_cons_of_pos _ (by simp)
    constructor
    · intro now2 nm2 ct2 b2
      exact createProfile_eq_error hfindc1 now2 nm2 ct2 b2
    · rw [hdocs, List.filter_append]
      have h1 : c.docs.filter (fun d => d.user == u) = [] :=
        List.filter_eq_nil_iff.mpr (fun a ha => by simp [hpre a ha])
      rw [h1]
      simp
  · intro c u c1 hreach heq now nm ct b
    have hinv := profile_atMostOne_of_reachable c hreach
    have hdocs := deleteProfile_ok_inv heq
    have hcount : c1.docs.filter (fun d => d.user == u) = [] := by
      rw [hdocs]
      exact filter_deleteFirst_eq_nil (hinv u)
    have hnone : c1.readOne (fun d => d.user == u) = none := by
      show c1.docs.find? (fun d => d.user == u) = none
      rw [List.find?_eq_none]
      intro x hx hpx
      have hmem : x ∈ c1.docs.filter (fun d => d.user == u) :=
        List.mem_filter.mpr ⟨hx, hpx⟩
      rw [hcount] at hmem
      cases hmem
    exact ⟨_, _, createProfile_eq_ok hnone now nm ct b⟩

/-- Witness for C9: user 7, profile "Ann" created at time 5 from the
empty store, deleted, then "Bea" created again. -/
theorem claim_C9_witness :
    (∀ (now2 : Time) (nm2 : String) (ct2 b2 : Option String),
      Routes.createProfile now2
          (⟨[⟨0, 5, 5, 7, "Ann", none, none⟩], 1⟩ : Profiles) 7 nm2 ct2 b2
        = .error (.userProfileExists 7))
    ∧ ((⟨[⟨0, 5, 5, 7, "Ann", none, none⟩], 1⟩ : Profiles).docs.filter
        (fun d => d.user == 7)).length = 1
    ∧ (∃ r c2, Routes.createProfile 9 (⟨[], 1⟩ : Profiles) 7 "Bea" none none
        = .ok (r, c2))
    ∧ AtMostOnePerUser (DocCollection.empty : Profiles) := by
  have hreach1 : ProfReachable
      (⟨[⟨0, 5, 5, 7, "Ann", none, none⟩], 1⟩ : Profiles) :=
    ProfReachable.createStep ProfReachable.init
      (show Routes.createProfile 5 (DocCollection.empty : Profiles) 7 "Ann"
          none none
        = .ok (some ⟨0, 5, 5, 7, "Ann", none, none⟩,
            ⟨[⟨0, 5, 5, 7, "Ann", none, none⟩], 1⟩) from rfl)
  have ha := claim_C9_profile_uniqueness.1 5 (DocCollection.empty : Profiles) 7 "Ann" none none
    (some ⟨0, 5, 5, 7, "Ann", none, none⟩)
    (⟨[⟨0, 5, 5, 7, "Ann", none, none⟩], 1⟩ : Profiles)
    ProfReachable.init rfl
  have hb := claim_C9_profile_uniqueness.2.1
    (⟨[⟨0, 5, 5, 7, "Ann", none, none⟩], 1⟩ : Profiles) 7
    (⟨[], 1⟩ : Profiles) hreach1 rfl 9 "Bea" none none
  exact ⟨ha.1, ha.2, hb, claim_C9_profile_uniqueness.2.2 (DocCollection.empty : Profiles)
    ProfReachable.init⟩

end A5
